import Mathlib

/-!
# Verification of the exdir.rs directory store core

A shallow embedding of `src/lib.rs` of `berquist/exdir.rs`, a filesystem-backed
hierarchical data store.  Paths handed to the filesystem are modelled as lists of
path segments (Unix, relative); the filesystem itself is an association list from
such paths to entries.  The YAML serializer (`serde_yaml`) is an external
collaborator, out of scope for the spec, so a metadata file's bytes are modelled
up to parseability: `Entry.file (some m)` is a file whose bytes parse as the
`Metadata` value `m`, and `Entry.file none` is a file whose bytes do not parse
as `Metadata`.

Rust `panic!` sites abort the process; each is modelled as an `ExdirError`
constructor named after the condition that fired (the spec's error taxonomy):
* `notFound`       — `File::new`, mode `r`/`r+` with `!already_exists`;
* `alreadyExists`  — `File::new`, mode `w` without `allow_remove` or `w-`/`x`
                      on an existing store, and the exists-check of
                      `_create_object_directory`;
* `invalidFormat`  — `File::new`, "already exists, but is not a valid exdir
                      file", and the `serde_yaml::from_reader(..).unwrap()`
                      parse failure inside `is_nonraw_object_directory`;
* `invalidArgument`— `File::new`, unrecognized mode token;
* `ioFailure`      — a failed filesystem call whose error is propagated or
                      unwrapped (e.g. `File::open` on a directory).

Functions that mutate the filesystem return `Fs × Except ExdirError _`: on an
error the returned `Fs` is the on-disk state at the moment of the panic/return.
-/

namespace Exdir

/-- Character-level split (structural, kernel-reducible), matching
`str::split` semantics: `splitChars '/' "a/b".data = [['a'], ['b']]`,
and the empty list splits to `[[]]`. -/
def splitChars (sep : Char) : List Char → List (List Char)
  | [] => [[]]
  | c :: cs =>
    let r := splitChars sep cs
    if c = sep then [] :: r
    else
      match r with
      | [] => [[c]]
      | h :: t => (c :: h) :: t

/-- A filesystem path, as its list of segments (Unix, relative to the process
working directory; the code under verification never constructs paths whose
segments contain `/`). -/
abbrev FsPath := List String

/-- `PathBuf::from` on a string, as the list of its non-empty `/`-separated
segments. -/
def pathOfString (s : String) : FsPath :=
  ((splitChars '/' s.data).map String.mk).filter (fun seg => seg ≠ "")

/-- The extension encoded by the `.`-split parts of a file name: `none` when
there is no `.` at all (a single part) or when the only `.` is the leading
character (exactly two parts, the first empty); otherwise the last part. -/
def extFromParts (parts : List (List Char)) : Option String :=
  match parts with
  | [] => none
  | [_] => none
  | [[], _] => none
  | ps => ps.getLast?.map String.mk

/-- `Path::extension()` applied to a single file name (Rust semantics: the
portion after the last `.`; `None` when there is no `.`, or when the only `.`
is the leading character). -/
def fileExtension (name : String) : Option String :=
  extFromParts (splitChars '.' name.data)

/-- `Path::extension()` on a segment-list path: the extension of the final
segment (`file_name`); `.` and `..` have no file name. -/
def pathExtension (p : FsPath) : Option String :=
  match p.getLast? with
  | none => none
  | some seg => if seg = "." ∨ seg = ".." then none else fileExtension seg

-- Constants from the top of `lib.rs`.

/-- `META_FILENAME`: the fixed name of the metadata envelope file. -/
def META_FILENAME : String := "exdir.yaml"

/-- `ATTRIBUTES_FILENAME`. -/
def ATTRIBUTES_FILENAME : String := "attributes.yaml"

/-- `RAW_FOLDER_NAME`. -/
def RAW_FOLDER_NAME : String := "__raw__"

/-- `RECOGNIZED_MODES`, verbatim (the source lists `"a"` twice). -/
def RECOGNIZED_MODES : List String := ["a", "r", "r+", "w", "w-", "x", "a"]

/-- `enum ObjectType { Dataset, Group, File }`. -/
inductive ObjectType where
  | Dataset
  | Group
  | File
  deriving DecidableEq, Repr

/-- `struct InnerMetadata { objtype: ObjectType, version: u8 }` (the `u8` is
modelled as `Nat`; the code only ever writes the value `1`). -/
structure InnerMetadata where
  objtype : ObjectType
  version : Nat
  deriving DecidableEq, Repr

/-- `struct Metadata { exdir: InnerMetadata }`. -/
structure Metadata where
  exdir : InnerMetadata
  deriving DecidableEq, Repr

/-- `Metadata::new`: the envelope for `objtype` at the current schema
version 1. -/
def Metadata.new (objtype : ObjectType) : Metadata :=
  { exdir := { objtype := objtype, version := 1 } }

/-- A directory entry: a directory, or a file whose content is modelled up to
`Metadata`-parseability (`file none` = bytes that do not parse as `Metadata`). -/
inductive Entry where
  | dir
  | file (content : Option Metadata)
  deriving DecidableEq, Repr

/-- The filesystem: an association list from paths to entries; the first
binding for a path wins. -/
abbrev Fs := List (FsPath × Entry)

/-- Look up the entry at path `p` (first binding wins). -/
def Fs.lookup : Fs → FsPath → Option Entry
  | [], _ => none
  | (q, e) :: rest, p => if q = p then some e else Fs.lookup rest p

/-- `std::fs::remove_dir_all`: removes the directory and everything below it
(every path having `d` as a segment-prefix, `d` itself included). -/
def Fs.removeDirAll (fs : Fs) (d : FsPath) : Fs :=
  fs.filter (fun pe => !(decide (d <+: pe.1)))

/-- `std::fs::File::create` + a complete write: (re)binds path `p` to a file
with content `c`. -/
def Fs.writeFile (fs : Fs) (p : FsPath) (c : Option Metadata) : Fs :=
  (p, Entry.file c) :: fs

/-- The non-empty segment-prefixes of `p`, shortest first:
`prefixesOf [a, b] = [[a], [a, b]]`. -/
def prefixesOf (p : FsPath) : List FsPath :=
  (List.range p.length).map (fun i => p.take (i + 1))

/-- One step of `create_dir_all`: create directory `q` unless some entry is
already present at `q`. -/
def Fs.mkdirStep (acc : Fs) (q : FsPath) : Fs :=
  if (Fs.lookup acc q).isSome then acc else (q, Entry.dir) :: acc

/-- `std::fs::create_dir_all`: creates the directory at `p` and every missing
ancestor. -/
def Fs.createDirAll (fs : Fs) (p : FsPath) : Fs :=
  (prefixesOf p).foldl Fs.mkdirStep fs

/-- The spec's error taxonomy, tagging the `panic!`/error sites of the code
(see the header comment for the site-by-site correspondence). -/
inductive ExdirError where
  | notFound
  | alreadyExists
  | invalidFormat
  | invalidArgument
  | ioFailure
  deriving DecidableEq, Repr

/-- `struct Group;` (unit struct — the child-creation operations are stubs). -/
structure Group where
  deriving DecidableEq, Repr

/-- `struct Dataset;` (unit struct). -/
structure Dataset where
  deriving DecidableEq, Repr

/-- `struct File;` (unit struct). -/
structure File where
  deriving DecidableEq, Repr

/-- `impl HasLeaves for Group`: `fn create_dataset(&self, name: &str) -> Dataset`
— a stub that ignores both arguments and returns the unit `Dataset`. -/
def Group.create_dataset (_self : Group) (_name : String) : Dataset := Dataset.mk

/-- `impl HasLeaves for Group`: `fn create_group(&self, name: &str) -> Group`
— a stub that ignores both arguments and returns the unit `Group`. -/
def Group.create_group (_self : Group) (_name : String) : Group := Group.mk

/-- `impl HasLeaves for File`: `fn create_dataset` — stub. -/
def File.create_dataset (_self : File) (_name : String) : Dataset := Dataset.mk

/-- `impl HasLeaves for File`: `fn create_group` — stub. -/
def File.create_group (_self : File) (_name : String) : Group := Group.mk

/-- `fn is_nonraw_object_directory(directory) -> bool`: joins `META_FILENAME`
onto the directory; `false` when that path does not exist; otherwise opens and
parses it, `.unwrap()`-panicking when the metadata does not parse
(`invalidFormat`) or the path is not an openable file (`ioFailure`); `true`
when it parses (the parsed value is discarded). -/
def is_nonraw_object_directory (fs : Fs) (directory : FsPath) :
    Except ExdirError Bool :=
  let meta_filename := directory ++ [META_FILENAME]
  match fs.lookup meta_filename with
  | none => .ok false
  | some Entry.dir => .error .ioFailure
  | some (Entry.file none) => .error .invalidFormat
  | some (Entry.file (some _meta_data)) => .ok true

/-- `fn _create_object_directory(directory, metadata)`: panics when the
directory already exists; otherwise `create_dir_all` and write the serialized
metadata to `META_FILENAME` inside it. -/
def _create_object_directory (fs : Fs) (directory : FsPath) (metadata : Metadata) :
    Fs × Except ExdirError Unit :=
  if (fs.lookup directory).isSome then (fs, .error .alreadyExists)
  else
    let fs1 := fs.createDirAll directory
    let meta_filename := directory ++ [META_FILENAME]
    (fs1.writeFile meta_filename (some metadata), .ok ())

/-- The directory computation at the top of `File::new` (lines 142-153):
`target_ext = ".exdir"`; when `directory.extension()` is `None`, the store path
is `directory.join(".exdir")`; when it is `Some(ext)`, it is
`directory.join(ext)` unless `ext == ".exdir"` (which `Path::extension` can
never produce, since it strips the dot), in which case the path is unchanged. -/
def exdirDirectoryOf (directory : String) : FsPath :=
  let dir0 := pathOfString directory
  let target_ext := ".exdir"
  match pathExtension dir0 with
  | none => dir0 ++ [target_ext]
  | some ext => if ext ≠ target_ext then dir0 ++ [ext] else dir0

/-- The `match mode` block of `File::new` (lines 172-205): returns the
filesystem after the mode's own action (only `w` + `allow_remove` mutates,
via `remove_dir_all`) and the `should_create_directory` flag, or the error of
the branch's `panic!`. -/
def modeStep (fs : Fs) (dir : FsPath) (mode : String) (allow_remove : Bool)
    (already_exists : Bool) : Except ExdirError (Fs × Bool) :=
  match mode with
  | "r" => if already_exists then .ok (fs, false) else .error .notFound
  | "r+" => if already_exists then .ok (fs, false) else .error .notFound
  | "w" =>
    if already_exists then
      if allow_remove then .ok (fs.removeDirAll dir, true)
      else .error .alreadyExists
    else .ok (fs, true)
  | "w-" => if already_exists then .error .alreadyExists else .ok (fs, true)
  | "x" => if already_exists then .error .alreadyExists else .ok (fs, true)
  | "a" => if already_exists then .ok (fs, false) else .ok (fs, true)
  | _ => .error .invalidArgument

/-- `File::new(directory, mode, allow_remove)`: defaults (`allow_remove` ↦
`false`, `mode` ↦ `"a"`), mode-token recognition, the `.exdir` directory
computation, the validity gate (`is_nonraw_object_directory` on any existing
path, panicking with `invalidFormat` when it is not a valid exdir file), the
mode state machine, and finally `_create_object_directory` with envelope
`Metadata::new(ObjectType::File)` when the mode asked for creation. -/
def File.new (fs : Fs) (directory : String) (mode : Option String)
    (allow_remove : Option Bool) : Fs × Except ExdirError File :=
  let allow_remove := allow_remove.getD false
  let mode := mode.getD "a"
  if ¬ (mode ∈ RECOGNIZED_MODES) then (fs, .error .invalidArgument)
  else
    let dir := exdirDirectoryOf directory
    let already_exists := (fs.lookup dir).isSome
    let gate : Except ExdirError Unit :=
      if already_exists then
        match is_nonraw_object_directory fs dir with
        | .error e => .error e
        | .ok false => .error .invalidFormat
        | .ok true => .ok ()
      else .ok ()
    match gate with
    | .error e => (fs, .error e)
    | .ok () =>
      match modeStep fs dir mode allow_remove already_exists with
      | .error e => (fs, .error e)
      | .ok (fs1, false) => (fs1, .ok File.mk)
      | .ok (fs1, true) =>
        match _create_object_directory fs1 dir (Metadata.new ObjectType.File) with
        | (fs2, .ok _) => (fs2, .ok File.mk)
        | (fs2, .error e) => (fs2, .error e)

/-- `File::default(directory)`: `Self::new(directory, None, Some(false)).unwrap()`
(the `.unwrap()` panic on an error outcome is the `Except.error` itself). -/
def File.default (fs : Fs) (directory : String) : Fs × Except ExdirError File :=
  File.new fs directory none (some false)

/-- The metadata value stored at a directory's fixed-name envelope file, when
that file exists and parses — the parse that
`is_nonraw_object_directory` performs and then discards (`serde_yaml` itself
is out of scope; content is modelled up to parseability). -/
def readEnvelope (fs : Fs) (directory : FsPath) : Option Metadata :=
  match fs.lookup (directory ++ [META_FILENAME]) with
  | some (Entry.file c) => c
  | _ => none

-- The Object identity record works on path *text* (`to_str`), so it is
-- modelled over `String` with Rust's textual `PathBuf::push` semantics.

/-- Is `c` the first character of `s`? -/
def strStartsWithChar (s : String) (c : Char) : Bool :=
  match s.data with
  | [] => false
  | d :: _ => d = c

/-- Is `c` the last character of `s`? -/
def strEndsWithChar (s : String) (c : Char) : Bool :=
  match s.data.getLast? with
  | none => false
  | some d => d = c

/-- `PathBuf::push`/`Path::join` on Unix, textually: an absolute right operand
replaces the left; otherwise the right is appended, with a `/` in between
unless the left is empty or already ends in `/`. -/
def rustJoin (s t : String) : String :=
  if s = "" then t
  else if strStartsWithChar t '/' then t
  else if strEndsWithChar s '/' then s ++ t
  else s ++ "/" ++ t

/-- `struct Object` (lines 22-30): the identity record.  The `PathBuf` fields
hold their `to_str` text; the `file: Option<std::fs::File>` handle carries no
observable state and is `Option Unit`. -/
structure Object where
  root_directory : String
  object_name : String
  parent_path : String
  relative_path : String
  relative_name : String
  name : String
  file : Option Unit
  deriving DecidableEq, Repr

/-- `Object::new(root_directory, parent_path, object_name, file)`:
`relative_path = parent_path.join(object_name)`; `relative_name` is its text,
replaced by `""` when that text is exactly `"."`; `name = PathBuf::from("/")
.join(relative_name)`. -/
def Object.new (root_directory : String) (parent_path : String)
    (object_name : String) (file : Option Unit) : Object :=
  let relative_path := rustJoin parent_path object_name
  let relative_name := if relative_path = "." then "" else relative_path
  let name := rustJoin "/" relative_name
  { root_directory := root_directory
    object_name := object_name
    parent_path := parent_path
    relative_path := relative_path
    relative_name := relative_name
    name := name
    file := file }

deriving instance DecidableEq for Except

/-! ## Helper lemmas about the filesystem model -/

theorem lookup_removeDirAll_under (fs : Fs) (d p : FsPath) (h : d <+: p) :
    (fs.removeDirAll d).lookup p = none := by
  induction fs with
  | nil => rfl
  | cons pe rest ih =>
    simp only [Fs.removeDirAll, List.filter_cons] at ih ⊢
    by_cases hq : d <+: pe.1
    · simp [hq, ih]
    · have hne : pe.1 ≠ p := fun heq => hq (heq ▸ h)
      simp [hq, Fs.lookup, hne, ih]

theorem lookup_mkdirStep_of_ne (fs : Fs) (q x : FsPath) (h : q ≠ x) :
    (Fs.mkdirStep fs q).lookup x = fs.lookup x := by
  unfold Fs.mkdirStep
  split
  · rfl
  · simp [Fs.lookup, h]

theorem lookup_mkdirFold_of_not_mem (l : List FsPath) (fs : Fs) (x : FsPath)
    (h : x ∉ l) : (l.foldl Fs.mkdirStep fs).lookup x = fs.lookup x := by
  induction l generalizing fs with
  | nil => rfl
  | cons q t ih =>
    have hqx : q ≠ x := fun heq => h (heq ▸ List.mem_cons_self q t)
    have hxt : x ∉ t := fun hx => h (List.mem_cons_of_mem q hx)
    simp only [List.foldl_cons]
    rw [ih (Fs.mkdirStep fs q) hxt, lookup_mkdirStep_of_ne fs q x hqx]

theorem lookup_mkdirFold_cases (l : List FsPath) (fs : Fs) (x : FsPath) :
    (l.foldl Fs.mkdirStep fs).lookup x = fs.lookup x ∨
      (l.foldl Fs.mkdirStep fs).lookup x = some Entry.dir := by
  induction l generalizing fs with
  | nil => exact Or.inl rfl
  | cons q t ih =>
    simp only [List.foldl_cons]
    rcases ih (Fs.mkdirStep fs q) with h | h
    · rw [h]
      unfold Fs.mkdirStep
      split
      · exact Or.inl rfl
      · by_cases hqx : q = x
        · subst hqx; simp [Fs.lookup]
        · simp [Fs.lookup, hqx]
    · exact Or.inr h

theorem lookup_mkdirFold_isSome_of_mem (l : List FsPath) (fs : Fs) (x : FsPath)
    (h : x ∈ l) : ((l.foldl Fs.mkdirStep fs).lookup x).isSome := by
  induction l generalizing fs with
  | nil => cases h
  | cons q t ih =>
    simp only [List.foldl_cons]
    rcases List.mem_cons.mp h with hqx | hxt
    · subst hqx
      rcases lookup_mkdirFold_cases t (Fs.mkdirStep fs x) x with hc | hc
      · rw [hc]
        unfold Fs.mkdirStep
        split
        · assumption
        · simp [Fs.lookup]
      · rw [hc]; rfl
    · exact ih (Fs.mkdirStep fs q) hxt

theorem lookup_mkdirFold_dir (l : List FsPath) (fs : Fs) (x : FsPath)
    (hmem : x ∈ l) (hnone : fs.lookup x = none) :
    (l.foldl Fs.mkdirStep fs).lookup x = some Entry.dir := by
  rcases lookup_mkdirFold_cases l fs x with h | h
  · exfalso
    have := lookup_mkdirFold_isSome_of_mem l fs x hmem
    rw [h, hnone] at this
    exact Bool.noConfusion this
  · exact h

theorem mem_prefixesOf (q p : FsPath) (h : q ∈ prefixesOf p) : q <+: p := by
  simp only [prefixesOf, List.mem_map, List.mem_range] at h
  obtain ⟨i, _, rfl⟩ := h
  exact List.take_prefix (i + 1) p

theorem self_mem_prefixesOf (p : FsPath) (h : p ≠ []) : p ∈ prefixesOf p := by
  simp only [prefixesOf, List.mem_map, List.mem_range]
  refine ⟨p.length - 1, ?_, ?_⟩
  · have : 0 < p.length := List.length_pos.mpr h
    omega
  · have : 0 < p.length := List.length_pos.mpr h
    have hlen : p.length - 1 + 1 = p.length := by omega
    rw [hlen, List.take_length]

theorem lookup_createDirAll_self (fs : Fs) (p : FsPath) (hnone : fs.lookup p = none)
    (hne : p ≠ []) : (fs.createDirAll p).lookup p = some Entry.dir :=
  lookup_mkdirFold_dir (prefixesOf p) fs p (self_mem_prefixesOf p hne) hnone

theorem lookup_createDirAll_of_strict_extend (fs : Fs) (p x : FsPath)
    (hpre : p <+: x) (hne : x ≠ p) :
    (fs.createDirAll p).lookup x = fs.lookup x := by
  refine lookup_mkdirFold_of_not_mem (prefixesOf p) fs x (fun hmem => ?_)
  have hxp : x <+: p := mem_prefixesOf x p hmem
  have h1 := hxp.length_le
  have h2 := hpre.length_le
  exact hne (hxp.eq_of_length (Nat.le_antisymm h1 h2))

theorem lookup_writeFile_self (fs : Fs) (p : FsPath) (c : Option Metadata) :
    (fs.writeFile p c).lookup p = some (Entry.file c) := by
  simp [Fs.writeFile, Fs.lookup]

theorem lookup_writeFile_of_ne (fs : Fs) (p x : FsPath) (c : Option Metadata)
    (h : p ≠ x) : (fs.writeFile p c).lookup x = fs.lookup x := by
  simp [Fs.writeFile, Fs.lookup, h]

theorem append_meta_ne_self (d : FsPath) : d ++ [META_FILENAME] ≠ d := by
  intro h
  have := congrArg List.length h
  simp at this

theorem exdirDirectoryOf_ne_nil (directory : String) :
    exdirDirectoryOf directory ≠ [] := by
  unfold exdirDirectoryOf
  dsimp only
  split
  · simp
  · next ext hext =>
    split
    · simp
    · intro hnil
      rw [hnil] at hext
      simp [pathExtension] at hext

theorem splitChars_parts_no_sep (sep : Char) (l : List Char) :
    ∀ part ∈ splitChars sep l, sep ∉ part := by
  induction l with
  | nil =>
    intro part h
    simp only [splitChars, List.mem_singleton] at h
    subst h
    simp
  | cons c cs ih =>
    intro part h
    simp only [splitChars] at h
    by_cases hc : c = sep
    · rw [if_pos hc] at h
      rcases List.mem_cons.mp h with rfl | h2
      · simp
      · exact ih part h2
    · rw [if_neg hc] at h
      have hsc : ¬ sep = c := fun hs => hc hs.symm
      cases hr : splitChars sep cs with
      | nil =>
        rw [hr] at h
        rcases List.mem_cons.mp h with rfl | h2
        · simp only [List.mem_singleton]
          exact hsc
        · cases h2
      | cons hd tl =>
        rw [hr] at h
        rcases List.mem_cons.mp h with rfl | h2
        · have hhd : sep ∉ hd := ih hd (hr ▸ List.mem_cons_self hd tl)
          simp only [List.mem_cons, not_or]
          exact ⟨hsc, hhd⟩
        · exact ih part (hr ▸ List.mem_cons_of_mem hd h2)

theorem extFromParts_mem (parts : List (List Char)) (e : String)
    (h : extFromParts parts = some e) : e.data ∈ parts := by
  unfold extFromParts at h
  split at h
  · cases h
  · cases h
  · cases h
  · rcases Option.map_eq_some'.mp h with ⟨part, hlast, rfl⟩
    rcases List.mem_getLast?_eq_getLast (Option.mem_def.mpr hlast) with ⟨hne, hpart⟩
    rw [hpart]
    exact List.getLast_mem hne

theorem fileExtension_no_dot (name e : String) (h : fileExtension name = some e) :
    '.' ∉ e.data :=
  splitChars_parts_no_sep '.' name.data e.data (extFromParts_mem _ _ h)

/-- `Path::extension()` never contains a dot, so the `ext == ".exdir"` branch
of `File::new`'s directory computation can never be taken: no input path is
ever "used as-is". -/
theorem pathExtension_ne_target (s : String) :
    pathExtension (pathOfString s) ≠ some ".exdir" := by
  intro h
  unfold pathExtension at h
  split at h
  · cases h
  · split at h
    · cases h
    · have := fileExtension_no_dot _ _ h
      exact this (by decide)

/-! ## The claims -/

/-- C2 (counterexample): two successive same-name child creations on the same
parent **both** succeed — the second does not fail with AlreadyExists.  The
creation operations of `File` and `Group` are stubs returning a fresh unit
node unconditionally; there is no failure channel at all. -/
theorem claim_C2_counterexample :
    File.mk.create_group "child" = Group.mk ∧
      File.mk.create_dataset "child" = Dataset.mk ∧
      Group.mk.create_group "child" = Group.mk ∧
      Group.mk.create_dataset "child" = Dataset.mk ∧
      (Group.mk.create_group "child").create_group "child" = Group.mk :=
  ⟨rfl, rfl, rfl, rfl, rfl⟩

/-- C2 (amended): every child creation on a `File` or `Group` parent succeeds
unconditionally and returns the unit node, whatever names are used and however
often they repeat; no sibling-uniqueness check exists, and `Dataset` exposes
no creation operations at all (`HasLeaves` is implemented only for `File` and
`Group`). -/
theorem claim_C2_amended (f : File) (g : Group) (n m : String) :
    f.create_group n = Group.mk ∧
      f.create_dataset n = Dataset.mk ∧
      g.create_group n = Group.mk ∧
      g.create_dataset n = Dataset.mk ∧
      (g.create_group n).create_group m = Group.mk ∧
      (g.create_group n).create_dataset m = Dataset.mk :=
  ⟨rfl, rfl, rfl, rfl, rfl, rfl⟩

/-- C6 (counterexample): resolving with `parent_path = "."` and `name = ""`
does **not** yield `relative_name = ""` and `name = "/"`: Rust's
`Path::join` with an empty right operand appends a trailing separator, so the
joined text is `"./"`, which is not equal to `"."` and therefore escapes the
normalization; the resulting `relative_name` is `"./"` and `name` is `"/./"`. -/
theorem claim_C6_counterexample :
    (Object.new "root.exdir" "." "" none).relative_name = "./" ∧
      (Object.new "root.exdir" "." "" none).name = "/./" :=
  ⟨rfl, rfl⟩

/-- C6 (amended): `resolve(root, "", "x")` yields `relative_path = "x"` and
`name = "/x"` as claimed; but `resolve(root, ".", "")` yields
`relative_name = "./"` and `name = "/./"` (not `""` and `"/"`), because the
textual join of `"."` and `""` is `"./"`.  The `"." ↦ ""` normalization fires
only when the joined text is exactly `"."`, e.g. for `resolve(root, "", ".")`,
which does yield `relative_name = ""` and `name = "/"`. -/
theorem claim_C6_amended (root : String) (fh : Option Unit) :
    (Object.new root "" "x" fh).relative_path = "x" ∧
      (Object.new root "" "x" fh).name = "/x" ∧
      (Object.new root "." "" fh).relative_name = "./" ∧
      (Object.new root "." "" fh).name = "/./" ∧
      (Object.new root "" "." fh).relative_name = "" ∧
      (Object.new root "" "." fh).name = "/" :=
  ⟨rfl, rfl, rfl, rfl, rfl, rfl⟩

/-- C9: the store root directory actually used by `File::new` is **not** the
given name with `".exdir"` appended to the final segment.  `Path::extension()`
strips the leading dot, so the comparison `ext != ".exdir"` is always true
(the use-as-is branch is dead — see `pathExtension_ne_target`): a path already
ending in `".exdir"` gets its own dotless extension joined below it as a child
segment (`"test.exdir"` becomes `test.exdir/exdir`), and a path without an
extension gets `".exdir"` joined below it as a child segment (`"mydata"`
becomes `mydata/.exdir`, not `mydata.exdir`).  Evaluating the failing inputs: -/
theorem claim_C9 :
    exdirDirectoryOf "test.exdir" = ["test.exdir", "exdir"] ∧
      exdirDirectoryOf "mydata" = ["mydata", ".exdir"] ∧
      pathExtension (pathOfString "test.exdir") = some "exdir" ∧
      (File.new [] "test.exdir" (some "w") none).1.lookup ["test.exdir", "exdir"]
        = some Entry.dir ∧
      (File.new [] "test.exdir" (some "w") none).1.lookup
        ["test.exdir", "exdir", "exdir.yaml"]
        = some (Entry.file (some (Metadata.new ObjectType.File))) :=
  ⟨rfl, rfl, rfl, by decide, by decide⟩

/-- C10: `File::new` with `mode = None` behaves exactly as `mode = Some "a"`
(`mode.unwrap_or("a")`), and with `allow_remove = None` exactly as
`allow_remove = Some false` (`allow_remove.unwrap_or(false)`), on every
filesystem, path, and remaining argument. -/
theorem claim_C10 :
    (∀ (fs : Fs) (directory : String) (ar : Option Bool),
        File.new fs directory none ar = File.new fs directory (some "a") ar) ∧
      (∀ (fs : Fs) (directory : String) (mode : Option String),
        File.new fs directory mode none = File.new fs directory mode (some false)) :=
  ⟨fun _ _ _ => rfl, fun _ _ _ => rfl⟩

/-- C5: writing an envelope for type `T` into a fresh directory
(`_create_object_directory` with `Metadata::new(T)`) succeeds, and reading the
envelope back from that directory yields the same type `T` at the current
schema version 1; `is_nonraw_object_directory` then recognizes the
directory. -/
theorem claim_C5 (fs : Fs) (dir : FsPath) (T : ObjectType)
    (h : fs.lookup dir = none) :
    (_create_object_directory fs dir (Metadata.new T)).2 = .ok () ∧
      readEnvelope (_create_object_directory fs dir (Metadata.new T)).1 dir
        = some (Metadata.new T) ∧
      is_nonraw_object_directory (_create_object_directory fs dir (Metadata.new T)).1 dir
        = .ok true ∧
      (Metadata.new T).exdir.objtype = T ∧
      (Metadata.new T).exdir.version = 1 := by
  have hres : _create_object_directory fs dir (Metadata.new T)
      = ((fs.createDirAll dir).writeFile (dir ++ [META_FILENAME])
          (some (Metadata.new T)), .ok ()) := by
    simp [_create_object_directory, h]
  rw [hres]
  refine ⟨rfl, ?_, ?_, rfl, rfl⟩
  · unfold readEnvelope
    rw [lookup_writeFile_self]
  · unfold is_nonraw_object_directory
    dsimp only
    rw [lookup_writeFile_self]

/-- C5 witness: the round-trip at a concrete directory and type. -/
theorem claim_C5_witness :
    (_create_object_directory [] ["w.exdir"] (Metadata.new ObjectType.Dataset)).2
        = .ok () ∧
      readEnvelope
          (_create_object_directory [] ["w.exdir"] (Metadata.new ObjectType.Dataset)).1
          ["w.exdir"]
        = some (Metadata.new ObjectType.Dataset) ∧
      is_nonraw_object_directory
          (_create_object_directory [] ["w.exdir"] (Metadata.new ObjectType.Dataset)).1
          ["w.exdir"]
        = .ok true ∧
      (Metadata.new ObjectType.Dataset).exdir.objtype = ObjectType.Dataset ∧
      (Metadata.new ObjectType.Dataset).exdir.version = 1 :=
  claim_C5 [] ["w.exdir"] ObjectType.Dataset rfl

/-- C8 (counterexample): when the fixed-name metadata file exists but does not
parse as `Metadata`, the envelope read does **not** report absence — the
`serde_yaml::from_reader(..).unwrap()` panics (modelled as `invalidFormat`). -/
theorem claim_C8_counterexample :
    is_nonraw_object_directory
        [(["store.exdir"], Entry.dir),
         (["store.exdir", "exdir.yaml"], Entry.file none)]
        ["store.exdir"]
      = .error .invalidFormat := rfl

/-- C8 (amended): the envelope read reports absence (`false`) exactly when the
fixed-name metadata file is missing, reports presence (`true`) when the file
exists and parses under the schema, and **fails** (panics) when the file
exists but does not parse; it takes the filesystem only as input and so never
mutates it. -/
theorem claim_C8_amended (fs : Fs) (dir : FsPath) :
    (fs.lookup (dir ++ [META_FILENAME]) = none →
        is_nonraw_object_directory fs dir = .ok false) ∧
      (∀ m, fs.lookup (dir ++ [META_FILENAME]) = some (Entry.file (some m)) →
        is_nonraw_object_directory fs dir = .ok true) ∧
      (fs.lookup (dir ++ [META_FILENAME]) = some (Entry.file none) →
        is_nonraw_object_directory fs dir = .error .invalidFormat) := by
  refine ⟨fun h => ?_, fun m h => ?_, fun h => ?_⟩ <;>
    · unfold is_nonraw_object_directory
      dsimp only
      rw [h]

/-- C8 witness: the three amended cases at concrete filesystems. -/
theorem claim_C8_witness :
    is_nonraw_object_directory [(["a.exdir"], Entry.dir)] ["a.exdir"] = .ok false ∧
      is_nonraw_object_directory
          [(["a.exdir", "exdir.yaml"], Entry.file (some (Metadata.new ObjectType.File)))]
          ["a.exdir"]
        = .ok true ∧
      is_nonraw_object_directory
          [(["a.exdir", "exdir.yaml"], Entry.file none)] ["a.exdir"]
        = .error .invalidFormat :=
  ⟨(claim_C8_amended [(["a.exdir"], Entry.dir)] ["a.exdir"]).1 rfl,
   (claim_C8_amended
      [(["a.exdir", "exdir.yaml"], Entry.file (some (Metadata.new ObjectType.File)))]
      ["a.exdir"]).2.1 (Metadata.new ObjectType.File) rfl,
   (claim_C8_amended
      [(["a.exdir", "exdir.yaml"], Entry.file none)] ["a.exdir"]).2.2 rfl⟩

/-- C3 (counterexample): `File::new` with mode `r` on an existing directory
whose envelope identifies a **Group** succeeds — the envelope's type is never
checked, only its parseability — contradicting the claim that a different-type
envelope is rejected as a format error. -/
theorem claim_C3_counterexample :
    (File.new
        [(["store.exdir", "exdir"], Entry.dir),
         (["store.exdir", "exdir", "exdir.yaml"],
          Entry.file (some (Metadata.new ObjectType.Group)))]
        "store.exdir" (some "r") none).2 = .ok File.mk ∧
      readEnvelope
        [(["store.exdir", "exdir"], Entry.dir),
         (["store.exdir", "exdir", "exdir.yaml"],
          Entry.file (some (Metadata.new ObjectType.Group)))]
        ["store.exdir", "exdir"] = some (Metadata.new ObjectType.Group) :=
  ⟨by decide, by decide⟩

/-- C3 (amended): `File::new` with mode `r` or `r+` on an existing directory
succeeds exactly when the directory contains a parseable envelope of **any**
type (the type is not inspected); an existing directory whose envelope file is
missing is rejected as a format error (`invalidFormat`), not as an absent
store (`notFound`), and one whose envelope file exists but is unparseable is
likewise rejected as `invalidFormat` (the `unwrap` on the parse panics).  The
four conjuncts cover every possible binding of the fixed-name metadata path
(absent / parseable file / unparseable file / directory), so success occurs in
exactly the parseable case. -/
theorem claim_C3_amended (fs : Fs) (directory : String)
    (hex : (fs.lookup (exdirDirectoryOf directory)).isSome = true) :
    (fs.lookup (exdirDirectoryOf directory ++ [META_FILENAME]) = none →
        File.new fs directory (some "r") none = (fs, .error .invalidFormat) ∧
        File.new fs directory (some "r+") none = (fs, .error .invalidFormat)) ∧
      (∀ m,
        fs.lookup (exdirDirectoryOf directory ++ [META_FILENAME])
            = some (Entry.file (some m)) →
        File.new fs directory (some "r") none = (fs, .ok File.mk) ∧
        File.new fs directory (some "r+") none = (fs, .ok File.mk)) ∧
      (fs.lookup (exdirDirectoryOf directory ++ [META_FILENAME])
            = some (Entry.file none) →
        File.new fs directory (some "r") none = (fs, .error .invalidFormat) ∧
        File.new fs directory (some "r+") none = (fs, .error .invalidFormat)) ∧
      (fs.lookup (exdirDirectoryOf directory ++ [META_FILENAME]) = some Entry.dir →
        File.new fs directory (some "r") none = (fs, .error .ioFailure) ∧
        File.new fs directory (some "r+") none = (fs, .error .ioFailure)) := by
  refine ⟨fun h => ?_, fun m h => ?_, fun h => ?_, fun h => ?_⟩
  · constructor <;>
      simp [File.new, RECOGNIZED_MODES, hex, is_nonraw_object_directory, h]
  · constructor <;>
      simp [File.new, RECOGNIZED_MODES, hex, is_nonraw_object_directory, h, modeStep]
  · constructor <;>
      simp [File.new, RECOGNIZED_MODES, hex, is_nonraw_object_directory, h]
  · constructor <;>
      simp [File.new, RECOGNIZED_MODES, hex, is_nonraw_object_directory, h]

/-- C3 witness: the amended cases at concrete filesystems (an envelope-less
directory rejected as `invalidFormat`, a Dataset-envelope store opened with
`r`, and a store with an unparseable envelope file rejected as
`invalidFormat`). -/
theorem claim_C3_witness :
    File.new
        [(["b.exdir", "exdir"], Entry.dir)] "b.exdir" (some "r") none
      = ([(["b.exdir", "exdir"], Entry.dir)], .error .invalidFormat) ∧
      File.new
          [(["b.exdir", "exdir"], Entry.dir),
           (["b.exdir", "exdir", "exdir.yaml"],
            Entry.file (some (Metadata.new ObjectType.Dataset)))]
          "b.exdir" (some "r") none
        = ([(["b.exdir", "exdir"], Entry.dir),
            (["b.exdir", "exdir", "exdir.yaml"],
             Entry.file (some (Metadata.new ObjectType.Dataset)))], .ok File.mk) ∧
      File.new
          [(["b.exdir", "exdir"], Entry.dir),
           (["b.exdir", "exdir", "exdir.yaml"], Entry.file none)]
          "b.exdir" (some "r") none
        = ([(["b.exdir", "exdir"], Entry.dir),
            (["b.exdir", "exdir", "exdir.yaml"], Entry.file none)],
           .error .invalidFormat) :=
  ⟨((claim_C3_amended [(["b.exdir", "exdir"], Entry.dir)] "b.exdir" (by decide)).1
      (by decide)).1,
   ((claim_C3_amended
        [(["b.exdir", "exdir"], Entry.dir),
         (["b.exdir", "exdir", "exdir.yaml"],
          Entry.file (some (Metadata.new ObjectType.Dataset)))]
        "b.exdir" (by decide)).2.1 (Metadata.new ObjectType.Dataset) (by decide)).1,
   ((claim_C3_amended
        [(["b.exdir", "exdir"], Entry.dir),
         (["b.exdir", "exdir", "exdir.yaml"], Entry.file none)]
        "b.exdir" (by decide)).2.2.1 (by decide)).1⟩

/-- C1: opening an existing valid store (directory present, envelope parsing
as `{File, v1}`) with mode `w` and no removal confirmation fails with
AlreadyExists and returns the filesystem — hence the envelope file —
byte-for-byte unchanged; with confirmation it succeeds, the store directory's
old contents are gone (every strictly-under path other than the fresh envelope
is unbound), and the recreated store's envelope reads `{File, v1}`. -/
theorem claim_C1 (fs : Fs) (directory : String)
    (hdir : fs.lookup (exdirDirectoryOf directory) = some Entry.dir)
    (hmeta : fs.lookup (exdirDirectoryOf directory ++ [META_FILENAME])
        = some (Entry.file (some (Metadata.new ObjectType.File)))) :
    File.new fs directory (some "w") none = (fs, .error .alreadyExists) ∧
      (File.new fs directory (some "w") (some true)).2 = .ok File.mk ∧
      readEnvelope (File.new fs directory (some "w") (some true)).1
          (exdirDirectoryOf directory) = some (Metadata.new ObjectType.File) ∧
      (File.new fs directory (some "w") (some true)).1.lookup
          (exdirDirectoryOf directory) = some Entry.dir ∧
      (∀ p, exdirDirectoryOf directory <+: p → p ≠ exdirDirectoryOf directory →
        p ≠ exdirDirectoryOf directory ++ [META_FILENAME] →
        (File.new fs directory (some "w") (some true)).1.lookup p = none) := by
  have hex : (fs.lookup (exdirDirectoryOf directory)).isSome = true := by
    rw [hdir]; rfl
  have hrm : ((fs.removeDirAll (exdirDirectoryOf directory)).lookup
      (exdirDirectoryOf directory)) = none :=
    lookup_removeDirAll_under fs _ _ (List.prefix_refl _)
  have hW : File.new fs directory (some "w") (some true)
      = (((fs.removeDirAll (exdirDirectoryOf directory)).createDirAll
            (exdirDirectoryOf directory)).writeFile
          (exdirDirectoryOf directory ++ [META_FILENAME])
          (some (Metadata.new ObjectType.File)), .ok File.mk) := by
    simp [File.new, RECOGNIZED_MODES, hex, is_nonraw_object_directory, hmeta,
      modeStep, _create_object_directory, hrm]
  refine ⟨?_, ?_, ?_, ?_, ?_⟩
  · simp [File.new, RECOGNIZED_MODES, hex, is_nonraw_object_directory, hmeta, modeStep]
  · rw [hW]
  · rw [hW]
    unfold readEnvelope
    dsimp only
    rw [lookup_writeFile_self]
  · rw [hW]
    dsimp only
    rw [lookup_writeFile_of_ne _ _ _ _ (append_meta_ne_self _)]
    exact lookup_createDirAll_self _ _ hrm (exdirDirectoryOf_ne_nil directory)
  · intro p hpre hne hnmeta
    rw [hW]
    dsimp only
    rw [lookup_writeFile_of_ne _ _ _ _ (fun h => hnmeta h.symm)]
    rw [lookup_createDirAll_of_strict_extend _ _ _ hpre hne]
    exact lookup_removeDirAll_under fs _ p hpre

/-- C1 witness: a concrete valid store; unconfirmed `w` fails leaving the
filesystem untouched, confirmed `w` recreates a fresh `{File, v1}` store, and
a concrete pre-existing child path is gone afterwards. -/
theorem claim_C1_witness :
    File.new
        [(["test.exdir", "exdir"], Entry.dir),
         (["test.exdir", "exdir", "exdir.yaml"],
          Entry.file (some (Metadata.new ObjectType.File))),
         (["test.exdir", "exdir", "old"], Entry.dir)]
        "test.exdir" (some "w") none
      = ([(["test.exdir", "exdir"], Entry.dir),
          (["test.exdir", "exdir", "exdir.yaml"],
           Entry.file (some (Metadata.new ObjectType.File))),
          (["test.exdir", "exdir", "old"], Entry.dir)], .error .alreadyExists) ∧
      (File.new
          [(["test.exdir", "exdir"], Entry.dir),
           (["test.exdir", "exdir", "exdir.yaml"],
            Entry.file (some (Metadata.new ObjectType.File))),
           (["test.exdir", "exdir", "old"], Entry.dir)]
          "test.exdir" (some "w") (some true)).2 = .ok File.mk ∧
      readEnvelope
          (File.new
            [(["test.exdir", "exdir"], Entry.dir),
             (["test.exdir", "exdir", "exdir.yaml"],
              Entry.file (some (Metadata.new ObjectType.File))),
             (["test.exdir", "exdir", "old"], Entry.dir)]
            "test.exdir" (some "w") (some true)).1
          ["test.exdir", "exdir"]
        = some (Metadata.new ObjectType.File) ∧
      (File.new
          [(["test.exdir", "exdir"], Entry.dir),
           (["test.exdir", "exdir", "exdir.yaml"],
            Entry.file (some (Metadata.new ObjectType.File))),
           (["test.exdir", "exdir", "old"], Entry.dir)]
          "test.exdir" (some "w") (some true)).1.lookup
          ["test.exdir", "exdir", "old"]
        = none := by
  have h := claim_C1
    [(["test.exdir", "exdir"], Entry.dir),
     (["test.exdir", "exdir", "exdir.yaml"],
      Entry.file (some (Metadata.new ObjectType.File))),
     (["test.exdir", "exdir", "old"], Entry.dir)]
    "test.exdir" (by decide) (by decide)
  exact ⟨h.1, h.2.1, h.2.2.1,
    h.2.2.2.2 ["test.exdir", "exdir", "old"] (by decide) (by decide) (by decide)⟩

/-- C7: at a path where no store exists, mode `r` fails with NotFound leaving
the filesystem unchanged; mode `w-` (and mode `x`) succeeds and creates the
store; a subsequent mode-`r` open of the same path then succeeds. -/
theorem claim_C7 (fs : Fs) (directory : String)
    (habs : fs.lookup (exdirDirectoryOf directory) = none) :
    File.new fs directory (some "r") none = (fs, .error .notFound) ∧
      (File.new fs directory (some "w-") none).2 = .ok File.mk ∧
      (File.new fs directory (some "x") none).2 = .ok File.mk ∧
      (File.new (File.new fs directory (some "w-") none).1 directory
          (some "r") none).2 = .ok File.mk := by
  have hex : (fs.lookup (exdirDirectoryOf directory)).isSome = false := by
    rw [habs]; rfl
  have hWm : File.new fs directory (some "w-") none
      = ((fs.createDirAll (exdirDirectoryOf directory)).writeFile
          (exdirDirectoryOf directory ++ [META_FILENAME])
          (some (Metadata.new ObjectType.File)), .ok File.mk) := by
    simp [File.new, RECOGNIZED_MODES, hex, modeStep, _create_object_directory, habs]
  have hdir2 : ((fs.createDirAll (exdirDirectoryOf directory)).writeFile
      (exdirDirectoryOf directory ++ [META_FILENAME])
      (some (Metadata.new ObjectType.File))).lookup (exdirDirectoryOf directory)
      = some Entry.dir := by
    rw [lookup_writeFile_of_ne _ _ _ _ (append_meta_ne_self _)]
    exact lookup_createDirAll_self _ _ habs (exdirDirectoryOf_ne_nil directory)
  have hmeta2 : ((fs.createDirAll (exdirDirectoryOf directory)).writeFile
      (exdirDirectoryOf directory ++ [META_FILENAME])
      (some (Metadata.new ObjectType.File))).lookup
      (exdirDirectoryOf directory ++ [META_FILENAME])
      = some (Entry.file (some (Metadata.new ObjectType.File))) :=
    lookup_writeFile_self _ _ _
  refine ⟨?_, ?_, ?_, ?_⟩
  · simp [File.new, RECOGNIZED_MODES, hex, modeStep]
  · rw [hWm]
  · simp [File.new, RECOGNIZED_MODES, hex, modeStep, _create_object_directory, habs]
  · rw [hWm]
    have hex2 : (((fs.createDirAll (exdirDirectoryOf directory)).writeFile
        (exdirDirectoryOf directory ++ [META_FILENAME])
        (some (Metadata.new ObjectType.File))).lookup
        (exdirDirectoryOf directory)).isSome = true := by
      rw [hdir2]; rfl
    simp [File.new, RECOGNIZED_MODES, hex2, is_nonraw_object_directory, hmeta2, modeStep]

/-- C7 witness: the open sequence at a concrete absent path. -/
theorem claim_C7_witness :
    File.new [] "fresh" (some "r") none = ([], .error .notFound) ∧
      (File.new [] "fresh" (some "w-") none).2 = .ok File.mk ∧
      (File.new [] "fresh" (some "x") none).2 = .ok File.mk ∧
      (File.new (File.new [] "fresh" (some "w-") none).1 "fresh"
          (some "r") none).2 = .ok File.mk :=
  claim_C7 [] "fresh" rfl

theorem modeStep_ok_true_lookup (fs : Fs) (d : FsPath) (mode : String) (ar : Bool)
    (fs1 : Fs)
    (h : modeStep fs d mode ar ((fs.lookup d).isSome) = .ok (fs1, true)) :
    fs1.lookup d = none := by
  have hnone : ∀ (b : Bool), ¬ ((fs.lookup d).isSome = true) →
      fs1 = fs → fs1.lookup d = none := by
    intro _ hb hf
    cases hl : fs.lookup d with
    | none => rw [hf, hl]
    | some _ => exact absurd (by rw [hl]; rfl) hb
  unfold modeStep at h
  split at h
  · split at h
    · simp at h
    · cases h
  · split at h
    · simp at h
    · cases h
  · split at h
    · split at h
      · simp only [Except.ok.injEq, Prod.mk.injEq] at h
        rw [← h.1]
        exact lookup_removeDirAll_under fs d d (List.prefix_refl d)
      · cases h
    · next hcond =>
      simp only [Except.ok.injEq, Prod.mk.injEq] at h
      exact hnone true hcond h.1.symm
  · split at h
    · cases h
    · next hcond =>
      simp only [Except.ok.injEq, Prod.mk.injEq] at h
      exact hnone true hcond h.1.symm
  · split at h
    · cases h
    · next hcond =>
      simp only [Except.ok.injEq, Prod.mk.injEq] at h
      exact hnone true hcond h.1.symm
  · split at h
    · simp at h
    · next hcond =>
      simp only [Except.ok.injEq, Prod.mk.injEq] at h
      exact hnone true hcond h.1.symm
  · cases h

/-- C4: every failing create operation leaves the filesystem exactly as it
was: whenever `File::new` or `_create_object_directory` returns an error, the
filesystem it returns is its input filesystem — no partial directory and no
envelope file is left behind (the only state-changing failure candidate, the
create step after a confirmed `w`-removal, can in fact never fail, because the
removal unbinds the target path). -/
theorem claim_C4 :
    (∀ (fs : Fs) (directory : String) (mode : Option String) (ar : Option Bool)
        (fs' : Fs) (e : ExdirError),
      File.new fs directory mode ar = (fs', .error e) → fs' = fs) ∧
      (∀ (fs : Fs) (d : FsPath) (m : Metadata) (fs' : Fs) (e : ExdirError),
        _create_object_directory fs d m = (fs', .error e) → fs' = fs) := by
  have hcreate : ∀ (fs : Fs) (d : FsPath) (m : Metadata) (fs' : Fs) (e : ExdirError),
      _create_object_directory fs d m = (fs', .error e) → fs' = fs := by
    intro fs d m fs' e h
    unfold _create_object_directory at h
    split at h
    · simp only [Prod.mk.injEq] at h
      exact h.1.symm
    · simp at h
  refine ⟨?_, hcreate⟩
  intro fs directory mode ar fs' e h
  unfold File.new at h
  dsimp only at h
  split at h
  · simp only [Prod.mk.injEq] at h
    exact h.1.symm
  · split at h
    · simp only [Prod.mk.injEq] at h
      exact h.1.symm
    · split at h
      · simp only [Prod.mk.injEq] at h
        exact h.1.symm
      · simp at h
      · next fs1 hstep =>
        split at h
        · next fs2 u hcr =>
          simp at h
        · next fs2 e2 hcr =>
          have hfs2 : fs2 = fs1 := hcreate _ _ _ _ _ hcr
          have hnone := modeStep_ok_true_lookup fs _ _ _ fs1 hstep
          rw [hfs2] at hcr
          unfold _create_object_directory at hcr
          rw [hnone] at hcr
          simp at hcr

/-- C4 witness: concrete failing creates (mode `r` on an absent store; a
create into an occupied directory) leave their concrete filesystems
unchanged. -/
theorem claim_C4_witness :
    ([] : Fs) = [] ∧ [(["d"], Entry.dir)] = [(["d"], Entry.dir)] :=
  ⟨claim_C4.1 [] "absent" (some "r") none [] ExdirError.notFound (by decide),
   claim_C4.2 [(["d"], Entry.dir)] ["d"] (Metadata.new ObjectType.Group)
     [(["d"], Entry.dir)] ExdirError.alreadyExists (by decide)⟩

end Exdir
